import Mathlib

/-!
Verification of the alldebrid-proxy repository's core mechanisms:
the resumable stream relay (`src/app/utils/streaming.py`, mirrored in
`GofileClient.stream_download`) and the session credential manager
(`src/app/clients/gofile.py`).

The relay loop is embedded as a function over an "attempt oracle" that
plays the role of the network: for each GET attempt it yields either a
connection error or a response (status, bytes actually delivered before
a possible mid-body interruption, interruption flag).  The oracle sees
the current `bytes_downloaded` offset, which is exactly the information
the request carries: a `Range: bytes=<offset>-` header is sent iff the
offset is positive.  Chunking by `chunk_size` is concatenation-invariant
(the code forwards every non-empty chunk verbatim and counts its length),
so delivered bytes are modelled as flat lists.
-/

/-- One GET attempt, as seen from `stream_download`'s loop:
either `session.get` itself raises `aiohttp.ClientError` (`connError`),
or a response arrives with a status code, the list of body bytes the
origin actually delivers on this attempt, and a flag telling whether the
body iteration ends in a transient error (`ClientPayloadError`,
`ClientConnectionError`, `TimeoutError`) after those bytes. -/
inductive AttemptResult where
  | connError
  | resp (status : Nat) (served : List Nat) (interrupted : Bool)
deriving Repr, DecidableEq

/-- The argument of the `HTTPException` that `stream_download` raises at
lines 36/38 of streaming.py for a status outside [200, 206]:
416 becomes HTTPException(500, "Cannot resume download - range not
supported"), any other status becomes HTTPException(status, ...). -/
inductive InnerExc where
  | cannotResume
  | badStatus (code : Nat)
deriving Repr, DecidableEq

/-- How an invocation of streaming.py's `stream_download` generator ends.
`completed`: the body was consumed to the end and the generator returned.
`gaveUpMidBody`: retries were exhausted by a mid-body transient error and
the generator returned (line 66: plain `return`, no exception).
`connAfterRetries`: the `aiohttp.ClientError` handler exhausted retries
and raised HTTPException(500, "Failed to establish download connection
after retries").
`failedAfterRetries e`: the blanket `except Exception` handler exhausted
retries and raised HTTPException(500, "Download failed after retries: e");
`e` is the last exception it caught, which includes the `HTTPException`
the loop itself raises for a non-[200, 206] status.
`loopExit`: the `return` after the while loop (dead code: every path that
re-enters the loop has `retry_count <= max_retries`). -/
inductive RelayOutcome where
  | completed
  | gaveUpMidBody
  | connAfterRetries
  | failedAfterRetries (e : InnerExc)
  | loopExit
deriving Repr, DecidableEq

/-- Result of one relay invocation: how it ended, the concatenation of
all chunks forwarded downstream across all attempts, the final
`bytes_downloaded` counter, and how many GET attempts were issued. -/
structure RelayResult where
  outcome : RelayOutcome
  delivered : List Nat
  bytesDownloaded : Nat
  attempts : Nat
deriving Repr, DecidableEq

/-- The `while retry_count <= max_retries` loop of `stream_download`
(streaming.py lines 23-97).  `fuel` is the number of attempts the retry
budget still allows, i.e. `max_retries + 1 - retry_count`; the code's
post-increment test `if retry_count <= max_retries: continue` is the
test `fuel - 1 ≠ 0` here.  `bytes` is `bytes_downloaded`, `acc` the
bytes forwarded so far, `attempts` the number of GETs issued so far
(also the index handed to the oracle).

Branches, in source order:
* response status not in [200, 206]: the raised `HTTPException` is caught
  by the function's own blanket `except Exception` handler, which sleeps
  and retries, and after exhaustion raises HTTPException(500,
  "Download failed after retries: ...").
* status in [200, 206]: the body is consumed; every non-empty chunk
  increments `bytes_downloaded` and is yielded.  Completion returns;
  a transient error retries with the updated offset, and on exhaustion
  the generator plainly returns (`gaveUpMidBody`).
* `aiohttp.ClientError` during setup: retried; on exhaustion raises
  HTTPException(500, "Failed to establish download connection after
  retries"). -/
def relayLoop (ora : Nat → Nat → AttemptResult) :
    Nat → List Nat → Nat → Nat → RelayResult
  | bytes, acc, attempts, 0 => ⟨RelayOutcome.loopExit, acc, bytes, attempts⟩
  | bytes, acc, attempts, fuel + 1 =>
    match ora attempts bytes with
    | AttemptResult.connError =>
        if fuel = 0 then
          ⟨RelayOutcome.connAfterRetries, acc, bytes, attempts + 1⟩
        else
          relayLoop ora bytes acc (attempts + 1) fuel
    | AttemptResult.resp status served interrupted =>
        if status = 200 ∨ status = 206 then
          match interrupted with
          | true =>
            if fuel = 0 then
              ⟨RelayOutcome.gaveUpMidBody, acc ++ served,
                bytes + served.length, attempts + 1⟩
            else
              relayLoop ora (bytes + served.length) (acc ++ served)
                (attempts + 1) fuel
          | false =>
            ⟨RelayOutcome.completed, acc ++ served,
              bytes + served.length, attempts + 1⟩
        else
          if fuel = 0 then
            ⟨RelayOutcome.failedAfterRetries
                (if status = 416 then InnerExc.cannotResume
                 else InnerExc.badStatus status),
              acc, bytes, attempts + 1⟩
          else
            relayLoop ora bytes acc (attempts + 1) fuel

/-- `stream_download(url, chunk_size, max_retries)` from streaming.py:
`bytes_downloaded = 0`, `retry_count = 0`, then the loop with budget
`max_retries + 1` attempts. -/
def stream_download (ora : Nat → Nat → AttemptResult) (maxRetries : Nat) :
    RelayResult :=
  relayLoop ora 0 [] 0 (maxRetries + 1)

/-- The HTTP status (if any) that the relay invocation raises to the
consumer of the stream.  Both generator `return`s (`completed` and
`gaveUpMidBody`) end the async generator without any signal; only the
two exhaustion raises propagate, both as HTTPException with status 500. -/
def consumerSignal : RelayOutcome → Option Nat
  | RelayOutcome.completed => none
  | RelayOutcome.gaveUpMidBody => none
  | RelayOutcome.connAfterRetries => some 500
  | RelayOutcome.failedAfterRetries _ => some 500
  | RelayOutcome.loopExit => none

/-- A range-honouring origin holding a fixed `resource`: a request at
offset `o` is answered with status 200 when no range header was sent
(`o = 0`) and 206 otherwise, and the body is `resource` from offset `o`
on.  `faults attempt = some k` interrupts that attempt's body with a
transient error after `k` bytes have been delivered; `none` lets it
complete. -/
def honestOracle (resource : List Nat) (faults : Nat → Option Nat) :
    Nat → Nat → AttemptResult :=
  fun attempt offset =>
    match faults attempt with
    | none =>
        AttemptResult.resp (if offset = 0 then 200 else 206)
          (resource.drop offset) false
    | some k =>
        AttemptResult.resp (if offset = 0 then 200 else 206)
          ((resource.drop offset).take k) true

/-- The origin behaviour for C2's failing input: the first attempt
delivers 2 bytes and is then interrupted; every subsequent attempt — all
resume attempts carrying a range header, since `bytes_downloaded = 2 >
0` — is answered with 416 range-not-satisfiable and an empty body. -/
def oraRangeNotSatisfiable : Nat → Nat → AttemptResult := fun a _ =>
  if a = 0 then AttemptResult.resp 200 [5, 6] true
  else AttemptResult.resp 416 [] false

/-- An origin whose first attempt delivers `firstBytes` and is then
interrupted, and whose second attempt — a resume attempt carrying a
`Range` header whenever `firstBytes` is non-empty — answers with a
full-content 200 status and body `restBytes`. -/
def twoAttemptOracle (firstBytes restBytes : List Nat) :
    Nat → Nat → AttemptResult :=
  fun a _ =>
    if a = 0 then AttemptResult.resp 200 firstBytes true
    else AttemptResult.resp 200 restBytes false

/-- Python's `x or default` for an optional integer argument: `None` and
`0` are falsy, any other integer is returned unchanged. -/
def pyOrNat (arg : Option Nat) (default : Nat) : Nat :=
  match arg with
  | none => default
  | some n => if n = 0 then default else n

/-- `Settings.CHUNK_SIZE = int(os.getenv("CHUNK_SIZE", "8192"))`
(config.py line 22); `env = none` models an unset variable. -/
def Settings_CHUNK_SIZE (env : Option Nat) : Nat := env.getD 8192

/-- `Settings.MAX_RETRIES = int(os.getenv("MAX_RETRIES", "3"))`
(config.py line 23). -/
def Settings_MAX_RETRIES (env : Option Nat) : Nat := env.getD 3

/-- streaming.py line 11: `chunk_size = chunk_size or settings.CHUNK_SIZE`. -/
def streaming_chunk_size (arg env : Option Nat) : Nat :=
  pyOrNat arg (Settings_CHUNK_SIZE env)

/-- streaming.py line 12: `max_retries = max_retries or 10` (a hard-coded
literal, not `settings.MAX_RETRIES`). -/
def streaming_max_retries (arg : Option Nat) : Nat :=
  pyOrNat arg 10

/-- gofile.py line 210: `chunk_size = chunk_size or settings.CHUNK_SIZE`. -/
def gofile_chunk_size (arg env : Option Nat) : Nat :=
  pyOrNat arg (Settings_CHUNK_SIZE env)

/-- gofile.py line 211: `max_retries = max_retries or settings.MAX_RETRIES`. -/
def gofile_max_retries (arg env : Option Nat) : Nat :=
  pyOrNat arg (Settings_MAX_RETRIES env)

/-!  Session credential manager (`GofileClient`, gofile.py).

The mutable fields of the client that form the Credential Record:
`token` (a string or `None`), `authenticated`, `token_last_updated`
(a timestamp; modelled in whole seconds).  `__init__` (lines 12-18)
creates the record empty. -/

structure GofileClientState where
  token : Option (List Char)
  authenticated : Bool
  token_last_updated : Option Nat
deriving Repr, DecidableEq

/-- `GofileClient.__init__`: token `None`, authenticated `False`,
token_last_updated `None`. -/
def gofileInit : GofileClientState :=
  ⟨none, false, none⟩

/-- Python truthiness of `self.token`: `None` and the empty string are
falsy.  Token strings are modelled as their character lists. -/
def tokenTruthy : Option (List Char) → Bool
  | none => false
  | some s => decide (s ≠ [])

/-- `is_token_valid` (gofile.py lines 41-46): false when `self.token` or
`self.token_last_updated` is falsy, else `now - token_last_updated <
timedelta(minutes=9)` (540 seconds).  On `Nat`, `now - t` truncates at 0
when `now < t`; Python would compute a negative timedelta there, and
both give a verdict of "valid", so the embedding agrees. -/
def is_token_valid (now : Nat) (s : GofileClientState) : Bool :=
  match s.token_last_updated with
  | none => false
  | some t => tokenTruthy s.token && decide (now - t < 540)

/-- What `POST https://api.gofile.io/accounts` produces for `get_token`:
either a response with its HTTP status, whether the JSON body has
`status == "ok"`, and the `data.token` string, or an exception raised
anywhere inside the `try` (network failure, JSON parse error, missing
key); the latter also covers the `except Exception` path. -/
inductive AccountsResponse where
  | resp (status : Nat) (bodyOk : Bool) (token : List Char)
  | exn
deriving Repr, DecidableEq

/-- `get_token` (gofile.py lines 53-79): on HTTP 200 with body status
"ok" it assigns `self.token`, `self.authenticated = True` and
`self.token_last_updated = now` — three plain assignments with no await
between them, hence atomic from the caller's perspective — and returns
`True`; on any other response, and on any exception (all caught by the
function's own `except`), the record is left untouched and the function
returns `False`.  No exception escapes `get_token`. -/
def get_token (r : AccountsResponse) (now : Nat) (s : GofileClientState) :
    GofileClientState × Bool :=
  match r with
  | AccountsResponse.resp status bodyOk tok =>
      if status = 200 ∧ bodyOk then
        (⟨some tok, true, some now⟩, true)
      else
        (s, false)
  | AccountsResponse.exn => (s, false)

/-- Whether the account-creation attempt fails from `get_token`'s point
of view (it will return `False` and leave the record unchanged). -/
def refreshFails : AccountsResponse → Bool
  | AccountsResponse.resp status bodyOk _ => !(status == 200 && bodyOk)
  | AccountsResponse.exn => true

/-- `ensure_valid_token` (gofile.py lines 81-86), with its
exception-to-the-caller channel made explicit as `Except`: under
`self.token_lock`, if `is_token_valid()` is false it awaits
`get_token()`.  `get_token` handles every exception internally and
reports failure only through its ignored boolean return value, so both
branches end in `Except.ok` — the caller never receives an error from
this method, whatever the refresh outcome. -/
def ensure_valid_token (r : AccountsResponse) (now : Nat)
    (s : GofileClientState) : Except Unit GofileClientState :=
  if is_token_valid now s then Except.ok s
  else Except.ok (get_token r now s).1

/-- The prologue of `GofileClient.stream_download` (gofile.py lines
201-208), before any GET of file bytes: `ensure_valid_token()`, then
`if not self.authenticated: raise Exception("Failed to authenticate
with gofile for streaming")`.  `Except.error` is that raise (no stream
attempt begins); `Except.ok` proceeds to the download loop. -/
def gofile_stream_start (r : AccountsResponse) (now : Nat)
    (s : GofileClientState) : Except Unit GofileClientState :=
  match ensure_valid_token r now s with
  | Except.error e => Except.error e
  | Except.ok s1 =>
      if s1.authenticated then Except.ok s1 else Except.error ()

/-!  Concurrency model for `ensure_valid_token` under contention.

`K` callers each run `ensure_valid_token` once against the shared client
state, interleaved by an arbitrary scheduler.  Each caller's control
points follow the source line by line:
`start`   — at `async with self.token_lock:` (line 83), waiting to
            acquire the lock; the step succeeds only when no one holds it;
`check`   — holding the lock, about to evaluate `is_token_valid()`
            (line 84);
`refreshing` — holding the lock with `await self.get_token()` in flight
            (line 86): the awaits inside `get_token` are suspension
            points at which other tasks run, but they cannot pass the
            lock;
`unlock`  — about to leave the `async with` block, releasing the lock;
            the caller then reads the shared `self.token` as the result
            it observes;
`done`    — returned.

The scenario is the spec's contention scenario: the wall clock is a
fixed `now` (the contention window is short next to the 9-minute TTL)
and each network refresh succeeds, the `n`-th one returning the token
`freshTokens n`. -/

inductive CallerPC where
  | start
  | check
  | refreshing
  | unlock
  | done
deriving Repr, DecidableEq

/-- Shared state plus per-caller control state for `K` concurrent
`ensure_valid_token` calls.  `token` / `last_updated` are the client's
`self.token` / `self.token_last_updated` (tokens are drawn from `Nat`
here; only their identity matters), `refreshCount` counts completed
`get_token` network calls, `observed i` is the token caller `i` read
when it finished. -/
structure LockSysState (K : Nat) where
  holder : Option (Fin K)
  token : Option Nat
  last_updated : Option Nat
  refreshCount : Nat
  pcs : Fin K → CallerPC
  observed : Fin K → Option Nat

/-- `is_token_valid` on the shared fields of the contention model
(token present and age below 540 seconds). -/
def credValid (now : Nat) (token : Option Nat) (upd : Option Nat) : Bool :=
  match token, upd with
  | some _, some t => decide (now - t < 540)
  | _, _ => false

/-- One scheduler step giving caller `i` the processor.  A caller
blocked on the lock, or already done, changes nothing. -/
def lockStep (freshTokens : Nat → Nat) (now : Nat) {K : Nat}
    (s : LockSysState K) (i : Fin K) : LockSysState K :=
  match s.pcs i with
  | CallerPC.start =>
      match s.holder with
      | none =>
          { s with holder := some i,
                   pcs := Function.update s.pcs i CallerPC.check }
      | some _ => s
  | CallerPC.check =>
      if credValid now s.token s.last_updated then
        { s with pcs := Function.update s.pcs i CallerPC.unlock }
      else
        { s with pcs := Function.update s.pcs i CallerPC.refreshing }
  | CallerPC.refreshing =>
      { s with token := some (freshTokens s.refreshCount),
               last_updated := some now,
               refreshCount := s.refreshCount + 1,
               pcs := Function.update s.pcs i CallerPC.unlock }
  | CallerPC.unlock =>
      { s with holder := none,
               pcs := Function.update s.pcs i CallerPC.done,
               observed := Function.update s.observed i s.token }
  | CallerPC.done => s

/-- Initial state: lock free, the shared record holding some (possibly
absent or expired) credential, no refresh performed, every caller at the
lock, nothing observed. -/
def lockInit (K : Nat) (tok upd : Option Nat) : LockSysState K :=
  ⟨none, tok, upd, 0, fun _ => CallerPC.start, fun _ => none⟩

/-- Run a finite schedule (an arbitrary interleaving of caller ids). -/
def lockRun (freshTokens : Nat → Nat) (now : Nat) {K : Nat}
    (s0 : LockSysState K) (sched : List (Fin K)) : LockSysState K :=
  sched.foldl (lockStep freshTokens now) s0

/-- A caller is inside the lock-protected critical section of
`ensure_valid_token` (between acquiring and releasing `token_lock`). -/
def inCrit : CallerPC → Prop := fun pc =>
  pc = CallerPC.check ∨ pc = CallerPC.refreshing ∨ pc = CallerPC.unlock

/-- The inductive invariant of the contention model, for a run that
started from the record `(tok, upd)` (invalid at time `now`): the lock
holder is the unique caller in the critical section; the shared record
is either still the initial one with no refresh performed, or the
refreshed one with exactly one refresh performed; a caller seen
mid-refresh has not yet bumped the count; a caller about to release the
lock has seen the one refresh happen; a finished caller observed the
first refresh's token. -/
structure LockInv (ft : Nat → Nat) (now : Nat) (tok upd : Option Nat)
    (K : Nat) (s : LockSysState K) : Prop where
  holderInv : ∀ i, inCrit (s.pcs i) → s.holder = some i
  tokInv : (s.refreshCount = 0 ∧ s.token = tok ∧ s.last_updated = upd) ∨
           (s.refreshCount = 1 ∧ s.token = some (ft 0) ∧
             s.last_updated = some now)
  refInv : ∀ i, s.pcs i = CallerPC.refreshing → s.refreshCount = 0
  unlockInv : ∀ i, s.pcs i = CallerPC.unlock → s.refreshCount = 1
  doneInv : ∀ i, s.pcs i = CallerPC.done →
              s.observed i = some (ft 0) ∧ s.refreshCount = 1

/-!  Helper lemmas about the relay loop. -/

/-- Every iteration of the loop issues at most one GET, so the budget
`fuel` bounds the GETs still to come. -/
theorem relayLoop_attempts_le (ora : Nat → Nat → AttemptResult) :
    ∀ fuel bytes acc attempts,
      (relayLoop ora bytes acc attempts fuel).attempts ≤ attempts + fuel := by
  intro fuel
  induction fuel with
  | zero =>
      intro bytes acc attempts
      simp [relayLoop]
  | succ f ih =>
      intro bytes acc attempts
      rw [relayLoop]
      cases h : ora attempts bytes with
      | connError =>
          by_cases hf : f = 0
          · subst hf; simp
          · rw [if_neg hf]
            exact le_trans (ih _ _ _) (by omega)
      | resp status served interrupted =>
          dsimp only
          by_cases hs : status = 200 ∨ status = 206
          · rw [if_pos hs]
            cases interrupted with
            | false => simp
            | true =>
                by_cases hf : f = 0
                · subst hf; simp
                · rw [if_neg hf]
                  exact le_trans (ih _ _ _) (by omega)
          · rw [if_neg hs]
            by_cases hf : f = 0
            · subst hf; simp
            · rw [if_neg hf]
              exact le_trans (ih _ _ _) (by omega)

/-- Under unlimited connection failures the loop consumes its whole
budget — one GET per unit of fuel — and ends in the
connection-after-retries error. -/
theorem relayLoop_connError :
    ∀ fuel bytes acc attempts, 1 ≤ fuel →
      relayLoop (fun _ _ => AttemptResult.connError) bytes acc attempts fuel =
        ⟨RelayOutcome.connAfterRetries, acc, bytes, attempts + fuel⟩ := by
  intro fuel
  induction fuel with
  | zero => intro bytes acc attempts h; omega
  | succ f ih =>
      intro bytes acc attempts _
      cases hf : f with
      | zero => simp [relayLoop]
      | succ f2 =>
          have h2 : relayLoop (fun _ _ => AttemptResult.connError) bytes acc
              (attempts + 1) f = ⟨RelayOutcome.connAfterRetries, acc, bytes,
                attempts + 1 + f⟩ := ih bytes acc (attempts + 1) (by omega)
          simp only [relayLoop, hf] at h2 ⊢
          simp [h2]
          omega

/-- Against a range-honouring origin, the loop's accumulated output is
always the exact prefix of the resource of length `bytes_downloaded`
(no duplicate, missing or reordered byte), and a completed run has
delivered the whole resource. -/
theorem relayLoop_honest_exact (resource : List Nat) (faults : Nat → Option Nat) :
    ∀ fuel bytes acc attempts,
      acc = resource.take bytes → bytes ≤ resource.length →
      (relayLoop (honestOracle resource faults) bytes acc attempts fuel).delivered =
        resource.take
          (relayLoop (honestOracle resource faults) bytes acc attempts fuel).bytesDownloaded ∧
      (relayLoop (honestOracle resource faults) bytes acc attempts fuel).bytesDownloaded ≤
        resource.length ∧
      ((relayLoop (honestOracle resource faults) bytes acc attempts fuel).outcome =
          RelayOutcome.completed →
        (relayLoop (honestOracle resource faults) bytes acc attempts fuel).delivered =
          resource) := by
  intro fuel
  induction fuel with
  | zero =>
      intro bytes acc attempts hacc hle
      rw [relayLoop]
      refine ⟨by simpa using hacc, by simpa using hle, by intro hco; simp at hco⟩
  | succ f ih =>
      intro bytes acc attempts hacc hle
      have hst : ((if bytes = 0 then 200 else 206) = 200 ∨
          (if bytes = 0 then 200 else 206) = 206) := by
        by_cases hb : bytes = 0
        · left; rw [if_pos hb]
        · right; rw [if_neg hb]
      rw [relayLoop]
      cases hfa : faults attempts with
      | none =>
          simp only [honestOracle, hfa]
          rw [if_pos hst]
          have hby : bytes + (resource.drop bytes).length = resource.length := by
            rw [List.length_drop]; omega
          refine ⟨?_, ?_, ?_⟩
          · dsimp only
            rw [hby, List.take_length, hacc, List.take_append_drop]
          · dsimp only
            rw [hby]
          · intro _
            dsimp only
            rw [hacc, List.take_append_drop]
      | some k =>
          simp only [honestOracle, hfa]
          rw [if_pos hst]
          have hlen : ((resource.drop bytes).take k).length =
              min k (resource.length - bytes) := by
            rw [List.length_take, List.length_drop]
          have hacc2 : acc ++ (resource.drop bytes).take k =
              resource.take (bytes + ((resource.drop bytes).take k).length) := by
            rw [hacc, ← List.take_add, List.take_eq_take.mpr]
            rw [hlen]
            omega
          have hle2 : bytes + ((resource.drop bytes).take k).length ≤
              resource.length := by
            rw [hlen]; omega
          by_cases hf : f = 0
          · subst hf
            rw [if_pos rfl]
            refine ⟨by simpa using hacc2, by simpa using hle2, by intro hco; simp at hco⟩
          · rw [if_neg hf]
            exact ih _ _ _ hacc2 hle2

/-- A run against the range-honouring origin whose every attempt is cut
off by a transient error after one byte: each unit of fuel forwards one
more byte of the resource, and the run ends in the silent
`gaveUpMidBody` return. -/
theorem relayLoop_one_byte (resource : List Nat) :
    ∀ fuel bytes acc attempts, 1 ≤ fuel → bytes + fuel ≤ resource.length →
      relayLoop (honestOracle resource (fun _ => some 1)) bytes acc attempts fuel =
        ⟨RelayOutcome.gaveUpMidBody, acc ++ (resource.drop bytes).take fuel,
          bytes + fuel, attempts + fuel⟩ := by
  intro fuel
  induction fuel with
  | zero => intro bytes acc attempts h _; omega
  | succ f ih =>
      intro bytes acc attempts _ hlen
      have hst : ((if bytes = 0 then 200 else 206) = 200 ∨
          (if bytes = 0 then 200 else 206) = 206) := by
        by_cases hb : bytes = 0
        · left; rw [if_pos hb]
        · right; rw [if_neg hb]
      have h1 : ((resource.drop bytes).take 1).length = 1 := by
        rw [List.length_take, List.length_drop]; omega
      rw [relayLoop]
      simp only [honestOracle]
      rw [if_pos hst]
      by_cases hf : f = 0
      · subst hf
        simp [h1]
      · simp only [if_neg hf]
        rw [h1]
        rw [ih (bytes + 1) (acc ++ (resource.drop bytes).take 1) (attempts + 1)
          (by omega) (by omega)]
        have htk : (resource.drop bytes).take (f + 1) =
            (resource.drop bytes).take 1 ++
              (resource.drop (bytes + 1)).take f := by
          have harith : f + 1 = 1 + f := by omega
          rw [harith, List.take_add, List.drop_drop]
        rw [htk, ← List.append_assoc]
        congr 1 <;> omega

/-!  Helper lemmas about the contention model. -/

theorem lockInit_inv (ft : Nat → Nat) (now : Nat) (tok upd : Option Nat)
    (K : Nat) : LockInv ft now tok upd K (lockInit K tok upd) := by
  refine ⟨?_, Or.inl ⟨rfl, rfl, rfl⟩, ?_, ?_, ?_⟩
  · intro i hc
    rcases hc with h | h | h <;> exact absurd h (by simp [lockInit])
  · intro i h; exact absurd h (by simp [lockInit])
  · intro i h; exact absurd h (by simp [lockInit])
  · intro i h; exact absurd h (by simp [lockInit])

theorem lockStep_inv (ft : Nat → Nat) (now : Nat) (tok upd : Option Nat)
    (K : Nat) (hexp : credValid now tok upd = false)
    (s : LockSysState K) (inv : LockInv ft now tok upd K s) (i : Fin K) :
    LockInv ft now tok upd K (lockStep ft now s i) := by
  cases hpc : s.pcs i with
  | start =>
      cases hh : s.holder with
      | some j =>
          rw [lockStep, hpc, hh]
          exact inv
      | none =>
          rw [lockStep, hpc, hh]
          dsimp only
          refine ⟨?_, inv.tokInv, ?_, ?_, ?_⟩
          · intro j hj
            dsimp only at hj ⊢
            by_cases hji : j = i
            · subst hji; rfl
            · rw [Function.update_noteq hji] at hj
              have hjh := inv.holderInv j hj
              rw [hh] at hjh
              exact Option.noConfusion hjh
          · intro j hj
            dsimp only at hj ⊢
            by_cases hji : j = i
            · subst hji; rw [Function.update_same] at hj; cases hj
            · rw [Function.update_noteq hji] at hj
              exact inv.refInv j hj
          · intro j hj
            dsimp only at hj ⊢
            by_cases hji : j = i
            · subst hji; rw [Function.update_same] at hj; cases hj
            · rw [Function.update_noteq hji] at hj
              exact inv.unlockInv j hj
          · intro j hj
            dsimp only at hj ⊢
            by_cases hji : j = i
            · subst hji; rw [Function.update_same] at hj; cases hj
            · rw [Function.update_noteq hji] at hj
              exact inv.doneInv j hj
  | check =>
      have hold : s.holder = some i := inv.holderInv i (Or.inl hpc)
      rw [lockStep, hpc]
      dsimp only
      by_cases hv : credValid now s.token s.last_updated = true
      · rw [if_pos hv]
        have hcount : s.refreshCount = 1 := by
          rcases inv.tokInv with ⟨_, ht, hu⟩ | ⟨hc, _, _⟩
          · rw [ht, hu, hexp] at hv
            exact Bool.noConfusion hv
          · exact hc
        refine ⟨?_, inv.tokInv, ?_, ?_, ?_⟩
        · intro j hj
          dsimp only at hj ⊢
          by_cases hji : j = i
          · subst hji; exact hold
          · rw [Function.update_noteq hji] at hj
            exact inv.holderInv j hj
        · intro j hj
          dsimp only at hj ⊢
          by_cases hji : j = i
          · subst hji; rw [Function.update_same] at hj; cases hj
          · rw [Function.update_noteq hji] at hj
            exact inv.refInv j hj
        · intro j hj
          dsimp only at hj ⊢
          exact hcount
        · intro j hj
          dsimp only at hj ⊢
          by_cases hji : j = i
          · subst hji; rw [Function.update_same] at hj; cases hj
          · rw [Function.update_noteq hji] at hj
            exact inv.doneInv j hj
      · rw [if_neg hv]
        have hcount : s.refreshCount = 0 := by
          rcases inv.tokInv with ⟨hc, _, _⟩ | ⟨_, ht, hu⟩
          · exact hc
          · rw [ht, hu] at hv
            simp [credValid, Nat.sub_self] at hv
        refine ⟨?_, inv.tokInv, ?_, ?_, ?_⟩
        · intro j hj
          dsimp only at hj ⊢
          by_cases hji : j = i
          · subst hji; exact hold
          · rw [Function.update_noteq hji] at hj
            exact inv.holderInv j hj
        · intro j hj
          dsimp only at hj ⊢
          exact hcount
        · intro j hj
          dsimp only at hj ⊢
          by_cases hji : j = i
          · subst hji; rw [Function.update_same] at hj; cases hj
          · rw [Function.update_noteq hji] at hj
            exact inv.unlockInv j hj
        · intro j hj
          dsimp only at hj ⊢
          by_cases hji : j = i
          · subst hji; rw [Function.update_same] at hj; cases hj
          · rw [Function.update_noteq hji] at hj
            exact inv.doneInv j hj
  | refreshing =>
      have hold : s.holder = some i := inv.holderInv i (Or.inr (Or.inl hpc))
      have hcount : s.refreshCount = 0 := inv.refInv i hpc
      rw [lockStep, hpc]
      dsimp only
      refine ⟨?_, Or.inr ⟨by dsimp only; rw [hcount],
        by dsimp only; rw [hcount], by dsimp only⟩, ?_, ?_, ?_⟩
      · intro j hj
        dsimp only at hj ⊢
        by_cases hji : j = i
        · subst hji; exact hold
        · rw [Function.update_noteq hji] at hj
          exact inv.holderInv j hj
      · intro j hj
        dsimp only at hj ⊢
        by_cases hji : j = i
        · subst hji; rw [Function.update_same] at hj; cases hj
        · rw [Function.update_noteq hji] at hj
          have hjh := inv.holderInv j (Or.inr (Or.inl hj))
          rw [hold] at hjh
          exact absurd (Option.some.inj hjh).symm hji
      · intro j hj
        dsimp only at hj ⊢
        rw [hcount]
      · intro j hj
        dsimp only at hj ⊢
        by_cases hji : j = i
        · subst hji; rw [Function.update_same] at hj; cases hj
        · rw [Function.update_noteq hji] at hj
          exact ⟨(inv.doneInv j hj).1, by rw [hcount]⟩
  | unlock =>
      have hold : s.holder = some i := inv.holderInv i (Or.inr (Or.inr hpc))
      have hcount : s.refreshCount = 1 := inv.unlockInv i hpc
      have htok : s.token = some (ft 0) := by
        rcases inv.tokInv with ⟨hc, _, _⟩ | ⟨_, ht, _⟩
        · rw [hc] at hcount; exact absurd hcount (by decide)
        · exact ht
      rw [lockStep, hpc]
      dsimp only
      refine ⟨?_, inv.tokInv, ?_, ?_, ?_⟩
      · intro j hj
        dsimp only at hj ⊢
        by_cases hji : j = i
        · subst hji; rw [Function.update_same] at hj
          rcases hj with h | h | h <;> cases h
        · rw [Function.update_noteq hji] at hj
          have hjh := inv.holderInv j hj
          rw [hold] at hjh
          exact absurd (Option.some.inj hjh).symm hji
      · intro j hj
        dsimp only at hj ⊢
        by_cases hji : j = i
        · subst hji; rw [Function.update_same] at hj; cases hj
        · rw [Function.update_noteq hji] at hj
          exact inv.refInv j hj
      · intro j hj
        dsimp only at hj ⊢
        by_cases hji : j = i
        · subst hji; rw [Function.update_same] at hj; cases hj
        · rw [Function.update_noteq hji] at hj
          exact inv.unlockInv j hj
      · intro j hj
        dsimp only at hj ⊢
        by_cases hji : j = i
        · subst hji
          rw [Function.update_same] at hj ⊢
          rw [htok]
          exact ⟨rfl, hcount⟩
        · rw [Function.update_noteq hji] at hj
          rw [Function.update_noteq hji]
          exact inv.doneInv j hj
  | done =>
      rw [lockStep, hpc]
      exact inv

theorem lockRun_inv (ft : Nat → Nat) (now : Nat) (tok upd : Option Nat)
    (K : Nat) (hexp : credValid now tok upd = false) :
    ∀ (sched : List (Fin K)) (s : LockSysState K),
      LockInv ft now tok upd K s →
      LockInv ft now tok upd K (lockRun ft now s sched) := by
  intro sched
  induction sched with
  | nil => intro s inv; exact inv
  | cons x xs ih =>
      intro s inv
      exact ih (lockStep ft now s x) (lockStep_inv ft now tok upd K hexp s inv x)

/-!  Claim theorems. -/

/-- C1: against an origin that honours range requests, every terminating
relay invocation has forwarded exactly the contiguous prefix
`[0, bytesDelivered)` of the origin resource downstream — no byte
duplicated, none missing, none reordered — and an invocation that
completes its body (in particular one interrupted mid-stream at any byte
offsets and then resumed successfully) has delivered the original
resource bytes exactly. -/
theorem relay_delivers_exact_origin_data (resource : List Nat)
    (faults : Nat → Option Nat) (R : Nat) :
    (stream_download (honestOracle resource faults) R).delivered =
      resource.take
        (stream_download (honestOracle resource faults) R).bytesDownloaded ∧
    ((stream_download (honestOracle resource faults) R).outcome =
        RelayOutcome.completed →
      (stream_download (honestOracle resource faults) R).delivered =
        resource) := by
  have h := relayLoop_honest_exact resource faults (R + 1) 0 [] 0
    (by simp) (by simp)
  exact ⟨h.1, h.2.2⟩

/-- Witness for `relay_delivers_exact_origin_data`: a 5-byte resource,
interrupted after 2 bytes on the first attempt and resumed successfully
on the second; the relay completes and the concatenation of forwarded
chunks is the whole resource. -/
theorem relay_delivers_exact_origin_data_witness :
    (stream_download (honestOracle [0, 1, 2, 3, 4]
        (fun a => if a = 0 then some 2 else none)) 3).outcome =
      RelayOutcome.completed ∧
    (stream_download (honestOracle [0, 1, 2, 3, 4]
        (fun a => if a = 0 then some 2 else none)) 3).delivered =
      [0, 1, 2, 3, 4] :=
  ⟨by decide, (relay_delivers_exact_origin_data [0, 1, 2, 3, 4]
      (fun a => if a = 0 then some 2 else none) 3).2 (by decide)⟩

/-- C5: every relay invocation issues at most `max_retries + 1` GET
attempts; facing unlimited consecutive transient (connection) failures
it issues exactly `max_retries + 1` attempts and then terminates with
the retries-exhausted HTTP 500 error. -/
theorem relay_attempt_bound (ora : Nat → Nat → AttemptResult) (R : Nat) :
    (stream_download ora R).attempts ≤ R + 1 ∧
    (stream_download (fun _ _ => AttemptResult.connError) R).attempts = R + 1 ∧
    (stream_download (fun _ _ => AttemptResult.connError) R).outcome =
      RelayOutcome.connAfterRetries := by
  refine ⟨?_, ?_, ?_⟩
  · have h := relayLoop_attempts_le ora (R + 1) 0 [] 0
    simpa using h
  · rw [stream_download, relayLoop_connError (R + 1) 0 [] 0 (by omega)]
    simp
  · rw [stream_download, relayLoop_connError (R + 1) 0 [] 0 (by omega)]

/-- C2: the claim says a 416 (or any other fatal status) on a resume
attempt terminates the relay immediately with zero further attempts.
In the code the `HTTPException` raised for the 416 at streaming.py line
36 is caught by the same function's blanket `except Exception` handler
(line 89), which sleeps and retries: with `max_retries = 3` and the 416
arriving on attempt 2, the relay keeps issuing GETs until the budget is
exhausted — 4 attempts in total instead of 2 — and then surfaces a
generic retries-exhausted 500 wrapping the 416 message. -/
theorem range_not_satisfiable_is_retried :
    stream_download oraRangeNotSatisfiable 3 =
      ⟨RelayOutcome.failedAfterRetries InnerExc.cannotResume, [5, 6], 2, 4⟩ ∧
    (stream_download oraRangeNotSatisfiable 3).attempts ≠ 2 := by
  decide

/-- C3 counterexample: with `max_retries = 1` and the body interrupted
after one byte on every attempt, the relay exhausts its budget mid-body
having forwarded 2 of the 5 resource bytes, and ends the stream as a
plain end-of-stream: no exception, no error signal of any kind reaches
the consumer (streaming.py line 66 is a bare `return`). -/
theorem midbody_exhaustion_truncates_silently :
    stream_download (honestOracle [0, 1, 2, 3, 4] (fun _ => some 1)) 1 =
      ⟨RelayOutcome.gaveUpMidBody, [0, 1], 2, 2⟩ ∧
    consumerSignal
        (stream_download (honestOracle [0, 1, 2, 3, 4]
          (fun _ => some 1)) 1).outcome = none ∧
    (stream_download (honestOracle [0, 1, 2, 3, 4]
        (fun _ => some 1)) 1).delivered.length <
      ([0, 1, 2, 3, 4] : List Nat).length := by
  decide

/-- C3 amended: when the retry budget is exhausted by mid-body transient
failures, the relay does terminate the stream early (short read) but
signals nothing to the consumer — the truncation is silent; a
retries-exhausted HTTP 500 is surfaced only when the exhaustion happens
while establishing connections, before an acceptable response. -/
theorem midbody_exhaustion_gives_no_signal (resource : List Nat) (R : Nat)
    (h : R + 1 < resource.length) :
    stream_download (honestOracle resource (fun _ => some 1)) R =
      ⟨RelayOutcome.gaveUpMidBody, resource.take (R + 1), R + 1, R + 1⟩ ∧
    consumerSignal RelayOutcome.gaveUpMidBody = none ∧
    consumerSignal
      (stream_download (fun _ _ => AttemptResult.connError) R).outcome =
      some 500 := by
  refine ⟨?_, rfl, ?_⟩
  · rw [stream_download,
      relayLoop_one_byte resource (R + 1) 0 [] 0 (by omega) (by omega)]
    simp
  · rw [stream_download, relayLoop_connError (R + 1) 0 [] 0 (by omega)]
    rfl

/-- Witness for `midbody_exhaustion_gives_no_signal` at a concrete run:
5-byte resource, retry bound 1; the relay gives up silently after the
second one-byte attempt. -/
theorem midbody_exhaustion_gives_no_signal_witness :
    1 + 1 < ([0, 1, 2, 3, 4] : List Nat).length ∧
    stream_download (honestOracle [0, 1, 2, 3, 4] (fun _ => some 1)) 1 =
      ⟨RelayOutcome.gaveUpMidBody, ([0, 1, 2, 3, 4] : List Nat).take (1 + 1),
        1 + 1, 1 + 1⟩ :=
  ⟨by decide,
    (midbody_exhaustion_gives_no_signal [0, 1, 2, 3, 4] 1 (by decide)).1⟩

/-- C6 counterexample: after 2 bytes are delivered and the transfer is
interrupted, the resume attempt (offset 2, range header sent) is
answered with a full-content 200 response; the claim says the only
acceptable success status there is 206, but the relay accepts the 200,
consumes its body and reports successful completion. -/
theorem full_content_on_resume_accepted :
    stream_download (twoAttemptOracle [1, 2] [9, 9, 9]) 3 =
      ⟨RelayOutcome.completed, [1, 2, 9, 9, 9], 5, 2⟩ := by
  decide

/-- C6 amended: the status check `response.status not in [200, 206]`
(streaming.py line 34) does not consult whether a range header was sent:
a full-content 200 response is accepted as a success on every attempt,
including resume attempts with `bytes_downloaded > 0`, and its body is
consumed to completion. -/
theorem full_content_accepted_on_any_attempt
    (firstBytes restBytes : List Nat) (R : Nat) (h : firstBytes ≠ []) :
    0 < firstBytes.length ∧
    stream_download (twoAttemptOracle firstBytes restBytes) (R + 1) =
      ⟨RelayOutcome.completed, firstBytes ++ restBytes,
        firstBytes.length + restBytes.length, 2⟩ := by
  constructor
  · cases firstBytes with
    | nil => exact absurd rfl h
    | cons a l => simp
  · rw [stream_download, relayLoop]
    have e0 : twoAttemptOracle firstBytes restBytes 0 0 =
        AttemptResult.resp 200 firstBytes true := rfl
    rw [e0]
    dsimp only
    rw [if_pos (Or.inl rfl)]
    have hne : R + 1 ≠ 0 := by omega
    rw [if_neg hne, relayLoop]
    have e1 : twoAttemptOracle firstBytes restBytes (0 + 1)
        (0 + firstBytes.length) = AttemptResult.resp 200 restBytes false := rfl
    rw [e1]
    dsimp only
    rw [if_pos (Or.inl rfl)]
    simp

/-- Witness for `full_content_accepted_on_any_attempt`: one byte
delivered before the interruption, then a two-byte 200 body on the
resume attempt, accepted and consumed. -/
theorem full_content_accepted_on_any_attempt_witness :
    ([7] : List Nat) ≠ [] ∧
    (0 < ([7] : List Nat).length ∧
     stream_download (twoAttemptOracle [7] [8, 8]) (0 + 1) =
       ⟨RelayOutcome.completed, [7] ++ [8, 8],
         ([7] : List Nat).length + ([8, 8] : List Nat).length, 2⟩) :=
  ⟨by decide, full_content_accepted_on_any_attempt [7] [8, 8] 0 (by decide)⟩

/-- C7 counterexample: a client that authenticated earlier (token issued
at time 0) calls in at `now = 1000` s, past the 540-second TTL, so the
token is invalid; the refresh fails (`exn`).  `ensure_valid_token`
completes without propagating any error, and `stream_download`'s
prologue then proceeds straight to the download loop with the stale
record (`authenticated` is still true): no Credential-Unavailable error
surfaces anywhere, before or during streaming. -/
theorem refresh_failure_not_propagated :
    is_token_valid 1000 ⟨some [Char.ofNat 116], true, some 0⟩ = false ∧
    refreshFails AccountsResponse.exn = true ∧
    ensure_valid_token AccountsResponse.exn 1000
        ⟨some [Char.ofNat 116], true, some 0⟩ =
      Except.ok ⟨some [Char.ofNat 116], true, some 0⟩ ∧
    gofile_stream_start AccountsResponse.exn 1000
        ⟨some [Char.ofNat 116], true, some 0⟩ =
      Except.ok ⟨some [Char.ofNat 116], true, some 0⟩ :=
  ⟨by decide, rfl, rfl, rfl⟩

/-- C7 amended: when the refresh fails, `ensure_valid_token` returns
normally with the record unchanged — `get_token` catches every internal
exception and reports failure only through its ignored boolean result,
so no error is ever propagated to the caller and no internal retry
occurs — and `stream_download`'s prologue raises its authentication
error before any stream GET exactly when the client has never
successfully authenticated; a previously authenticated client whose
token has expired proceeds to stream with the stale record. -/
theorem ensure_valid_token_never_raises (r : AccountsResponse) (now : Nat)
    (s : GofileClientState) (hf : refreshFails r = true) :
    ensure_valid_token r now s = Except.ok s ∧
    (s.authenticated = false →
      gofile_stream_start r now s = Except.error ()) ∧
    (s.authenticated = true →
      gofile_stream_start r now s = Except.ok s) := by
  have hget : get_token r now s = (s, false) := by
    cases r with
    | exn => rfl
    | resp status bodyOk tok =>
        have hc : ¬(status = 200 ∧ bodyOk = true) := by
          rintro ⟨h1, h2⟩
          subst h1
          subst h2
          simp [refreshFails] at hf
        simp only [get_token]
        rw [if_neg hc]
  have hens : ensure_valid_token r now s = Except.ok s := by
    rw [ensure_valid_token]
    split
    · rfl
    · rw [hget]
  refine ⟨hens, ?_, ?_⟩
  · intro ha
    rw [gofile_stream_start, hens]
    simp [ha]
  · intro ha
    rw [gofile_stream_start, hens]
    simp [ha]

/-- Witness for `ensure_valid_token_never_raises`: a fresh client
(never authenticated) with a failing refresh; `ensure_valid_token`
returns normally and the stream prologue raises the authentication
error before any GET. -/
theorem ensure_valid_token_never_raises_witness :
    refreshFails AccountsResponse.exn = true ∧
    (ensure_valid_token AccountsResponse.exn 7 gofileInit =
        Except.ok gofileInit ∧
      (gofileInit.authenticated = false →
        gofile_stream_start AccountsResponse.exn 7 gofileInit =
          Except.error ()) ∧
      (gofileInit.authenticated = true →
        gofile_stream_start AccountsResponse.exn 7 gofileInit =
          Except.ok gofileInit)) :=
  ⟨by decide, ensure_valid_token_never_raises AccountsResponse.exn 7
      gofileInit (by decide)⟩

/-- C8 counterexample: the account-creation endpoint answering HTTP 200
with body status ok and an *empty* token string.  `get_token` stores the
empty token and sets `authenticated = True` (gofile.py lines 69-71 never
validate the received token), so the claimed invariant "authenticated
implies token non-empty" is broken: the record ends authenticated with a
falsy token, which `is_token_valid` then treats as invalid. -/
theorem get_token_accepts_empty_token :
    (get_token (AccountsResponse.resp 200 true []) 7 gofileInit).1.authenticated =
      true ∧
    (get_token (AccountsResponse.resp 200 true []) 7 gofileInit).1.token =
      some [] ∧
    tokenTruthy
      (get_token (AccountsResponse.resp 200 true []) 7 gofileInit).1.token =
      false := by
  decide

/-- C8 amended: every refresh either fails, leaving the Credential
Record exactly as it was (and returning `False`), or succeeds, setting
`token`, `authenticated` and `token_last_updated` together in a single
caller-visible update; the invariant "authenticated implies a token is
present (not `None`)" is preserved by every refresh, and the stronger
"authenticated implies token non-empty" form is preserved whenever the
provider's response carries a non-empty token — a condition the code
itself does not validate. -/
theorem get_token_atomic_update (r : AccountsResponse) (now : Nat)
    (s : GofileClientState) :
    ((get_token r now s).1 = s ∧ (get_token r now s).2 = false ∨
      ∃ tok, get_token r now s = (⟨some tok, true, some now⟩, true)) ∧
    ((s.authenticated = true → s.token ≠ none) →
      (get_token r now s).1.authenticated = true →
      (get_token r now s).1.token ≠ none) ∧
    ((s.authenticated = true → tokenTruthy s.token = true) →
      (∀ status bodyOk tok, r = AccountsResponse.resp status bodyOk tok →
        tok ≠ []) →
      (get_token r now s).1.authenticated = true →
      tokenTruthy (get_token r now s).1.token = true) := by
  cases r with
  | exn =>
      exact ⟨Or.inl ⟨rfl, rfl⟩, fun hinv hauth => hinv hauth,
        fun hinv _ hauth => hinv hauth⟩
  | resp status bodyOk tok =>
      by_cases hc : status = 200 ∧ bodyOk = true
      · refine ⟨Or.inr ⟨tok, ?_⟩, ?_, ?_⟩
        · simp only [get_token]
          rw [if_pos hc]
        · intro _ _
          simp only [get_token]
          rw [if_pos hc]
          simp
        · intro _ hne _
          simp only [get_token]
          rw [if_pos hc]
          have htok := hne status bodyOk tok rfl
          simp [tokenTruthy, htok]
      · refine ⟨Or.inl ?_, ?_, ?_⟩
        · constructor <;> (simp only [get_token]; rw [if_neg hc])
        · intro hinv
          simp only [get_token]
          rw [if_neg hc]
          exact hinv
        · intro hinv _
          simp only [get_token]
          rw [if_neg hc]
          exact hinv

/-- Witness for `get_token_atomic_update`: a successful refresh carrying
the one-character token "a" preserves the non-empty-token invariant. -/
theorem get_token_atomic_update_witness :
    tokenTruthy
      (get_token (AccountsResponse.resp 200 true [Char.ofNat 97]) 5
        gofileInit).1.token = true :=
  (get_token_atomic_update (AccountsResponse.resp 200 true [Char.ofNat 97])
      5 gofileInit).2.2 (by decide)
    (by
      intro status bodyOk tok he
      injection he with h1 h2 h3
      subst h3
      decide)
    (by decide)

/-- C9 counterexample: with `MAX_RETRIES` unset in the environment (the
configured default, 3), the generic relay in streaming.py line 12
defaults its retry count to a hard-coded 10, not to the configured
default 3 the claim states. -/
theorem streaming_default_retries_not_three :
    streaming_max_retries none = 10 ∧ streaming_max_retries none ≠ 3 ∧
    Settings_MAX_RETRIES none = 3 := by
  decide

/-- C9 amended: with no caller-supplied values and default
configuration, both relays use the configured 8192-byte chunk size, and
the gofile relay uses the configured default of 3 retries, but the
generic relay (streaming.py, used for AllDebrid URLs) uses a hard-coded
default of 10 retries, ignoring the configured `MAX_RETRIES`. -/
theorem relay_default_parameters :
    streaming_chunk_size none none = 8192 ∧
    gofile_chunk_size none none = 8192 ∧
    gofile_max_retries none none = 3 ∧
    streaming_max_retries none = 10 := by
  decide

/-- C10: an explicit `0` for `chunk_size` or `max_retries` is falsy in
Python's `x or default`, so both relays substitute exactly the value
they would use had the argument been omitted; with the default
configuration every effective value is positive, so a caller cannot
obtain a zero chunk size or a zero retry bound. -/
theorem zero_arguments_treated_as_absent :
    (∀ d, pyOrNat (some 0) d = pyOrNat none d) ∧
    streaming_chunk_size (some 0) none = streaming_chunk_size none none ∧
    streaming_max_retries (some 0) = streaming_max_retries none ∧
    gofile_chunk_size (some 0) none = gofile_chunk_size none none ∧
    gofile_max_retries (some 0) none = gofile_max_retries none none ∧
    0 < streaming_chunk_size (some 0) none ∧
    0 < streaming_max_retries (some 0) ∧
    0 < gofile_chunk_size (some 0) none ∧
    0 < gofile_max_retries (some 0) none := by
  exact ⟨fun d => rfl, by decide, by decide, by decide, by decide,
    by decide, by decide, by decide, by decide⟩

/-- C4: for any number `K` of concurrent callers of
`ensure_valid_token` starting from an expired-or-absent token, under
every interleaving: at most one caller is mid-refresh at any reachable
state (the `token_lock` is the sole gate), and once every caller has
finished, exactly one network refresh call has occurred and every caller
observed the same resulting token — the one produced by that single
refresh. -/
theorem single_refresh_under_contention (K : Nat) (ft : Nat → Nat)
    (now : Nat) (tok upd : Option Nat) (sched : List (Fin K))
    (hexp : credValid now tok upd = false) :
    (∀ i j : Fin K,
        (lockRun ft now (lockInit K tok upd) sched).pcs i =
          CallerPC.refreshing →
        (lockRun ft now (lockInit K tok upd) sched).pcs j =
          CallerPC.refreshing →
        i = j) ∧
    ((∀ i, (lockRun ft now (lockInit K tok upd) sched).pcs i =
        CallerPC.done) →
      ∀ i, (lockRun ft now (lockInit K tok upd) sched).refreshCount = 1 ∧
        (lockRun ft now (lockInit K tok upd) sched).observed i =
          some (ft 0)) := by
  have inv := lockRun_inv ft now tok upd K hexp sched (lockInit K tok upd)
    (lockInit_inv ft now tok upd K)
  constructor
  · intro i j hi hj
    have h1 := inv.holderInv i (Or.inr (Or.inl hi))
    have h2 := inv.holderInv j (Or.inr (Or.inl hj))
    rw [h1] at h2
    exact Option.some.inj h2
  · intro hall i
    have hd := inv.doneInv i (hall i)
    exact ⟨hd.2, hd.1⟩

/-- Witness for `single_refresh_under_contention`: two callers arriving
with no token at `now = 1000`, scheduled so that caller 0 refreshes
while caller 1 waits on the lock; both finish, one refresh happened, and
both observed the refreshed token. -/
theorem single_refresh_under_contention_witness :
    credValid 1000 none none = false ∧
    ((lockRun (fun n => n + 100) 1000 (lockInit 2 none none)
        [0, 0, 0, 0, 1, 1, 1]).refreshCount = 1 ∧
      (lockRun (fun n => n + 100) 1000 (lockInit 2 none none)
        [0, 0, 0, 0, 1, 1, 1]).observed 0 = some 100 ∧
      (lockRun (fun n => n + 100) 1000 (lockInit 2 none none)
        [0, 0, 0, 0, 1, 1, 1]).observed 1 = some 100) := by
  refine ⟨by decide, ?_, ?_, ?_⟩
  · exact ((single_refresh_under_contention 2 (fun n => n + 100) 1000 none
      none [0, 0, 0, 0, 1, 1, 1] (by decide)).2 (by decide) 0).1
  · exact ((single_refresh_under_contention 2 (fun n => n + 100) 1000 none
      none [0, 0, 0, 0, 1, 1, 1] (by decide)).2 (by decide) 0).2
  · exact ((single_refresh_under_contention 2 (fun n => n + 100) 1000 none
      none [0, 0, 0, 0, 1, 1, 1] (by decide)).2 (by decide) 1).2
